import Mathlib

/-!
Shallow embedding of the `fs_history` versioned path-history store
(`src/fs_history/models.py` and `src/fs_history/database.py`).

The store is modelled as an explicit relational state: a list of `Paths`
rows, a list of `Versions` rows, and the autoincrement counter for
`Paths.id`.  The declared schema constraints of `models.py` are enforced
at commit time, exactly as a relational backend honouring the declared
DDL would:

* `Paths`: `id` primary key (autoincrement, first value 1),
  `UNIQUE(parent, name)`;
* `Versions`: `PRIMARY KEY(path_id, version_no)`,
  `path_id REFERENCES Paths.id`.

A violated constraint surfaces as `DBError.constraintViolation`
(SQLAlchemy's `IntegrityError`).  The attribute payload is an opaque
JSON document; it is modelled by a type parameter `A`, since no store
operation ever inspects it.

Python-level behaviour that matters to the claims is carried over
faithfully:

* in `upsert_version` (database.py line 172) the filter
  `PathModel.parent == str(path.parent) and PathModel.name == path.name`
  is a Python `and` of two SQLAlchemy column expressions; `bool()` of the
  first operand (an `==` BinaryExpression comparing the column with a
  string) is `False`, so the `and` evaluates to its first operand and the
  emitted WHERE clause filters on `parent` only — the `name` clause is
  discarded;
* in `upsert_version` (line 181) `latest + 1` is evaluated on the raw
  scalar of `SELECT max(version_no)`; for a path with zero versions that
  scalar is `None` and Python raises `TypeError`, modelled as
  `DBError.pyTypeError`;
* `upsert_version` commits twice (lines 177 and 184): the new `Paths`
  row of a first observation is durable before the `Versions` row is
  written.  `upsert_version_firstCommit` exposes that intermediate
  committed state;
* `select_paths` / `select_versions` apply a filter only when the
  argument is truthy (`if parent:` / `if path_id:`), so `None`, the
  empty string and `0` all mean "no filter".

Rows are returned in table insertion order (the queries carry no
`ORDER BY`; the backend scans tables in rowid order), `first()` takes
the head of that order, and the `Paths JOIN Versions` of `select_all`
is enumerated as the nested-loop join: paths outer, versions inner.
-/

namespace FsHistory

/-- A row of the `Paths` relation (`PathModel` in models.py). -/
structure PathRec where
  id : Nat
  parent : String
  name : String
deriving Repr, DecidableEq

/-- A row of the `Versions` relation (`VersionModel` in models.py);
`A` is the opaque JSON payload type of the `attrs` column. -/
structure VersionRec (A : Type) where
  path_id : Nat
  version_no : Nat
  attrs : A
deriving Repr, DecidableEq

/-- The relational store: both tables plus the `Paths.id` autoincrement
counter (next value to assign; SQLite-style, first id is 1). -/
structure DB (A : Type) where
  paths : List PathRec
  versions : List (VersionRec A)
  nextId : Nat
deriving Repr, DecidableEq

/-- A freshly provisioned store (`setup()` on an empty database). -/
def emptyDB {A : Type} : DB A := ⟨[], [], 1⟩

/-- Failure conditions an operation can surface.  The code raises
`constraintViolation` (IntegrityError) for a violated uniqueness,
primary-key or foreign-key constraint and `pyTypeError` for the Python
`TypeError` of `None + 1`; `notFound` appears in the spec's error
taxonomy and is included so that theorems can speak about it, but no
operation of the source ever produces it. -/
inductive DBError where
  | constraintViolation
  | notFound
  | pyTypeError
deriving Repr, DecidableEq

/-- Commit of a new `PathModel` row (`_commit_model` on a `PathModel`):
assigns the next autoincrement id and enforces `UNIQUE(parent, name)`. -/
def commitPath {A : Type} (db : DB A) (parent name : String) :
    Except DBError (DB A × PathRec) :=
  if db.paths.any (fun q => q.parent == parent && q.name == name) then
    .error .constraintViolation
  else
    let p : PathRec := ⟨db.nextId, parent, name⟩
    .ok ({ paths := db.paths ++ [p], versions := db.versions,
           nextId := db.nextId + 1 }, p)

/-- Commit of a new `VersionModel` row (`_commit_model` on a
`VersionModel`): enforces `PRIMARY KEY(path_id, version_no)` and the
declared foreign key `path_id REFERENCES Paths.id`. -/
def commitVersion {A : Type} (db : DB A) (v : VersionRec A) :
    Except DBError (DB A) :=
  if db.versions.any (fun w => w.path_id == v.path_id && w.version_no == v.version_no) then
    .error .constraintViolation
  else if db.paths.all (fun p => p.id != v.path_id) then
    .error .constraintViolation
  else
    .ok { db with versions := db.versions ++ [v] }

/-- `Database.insert_path` (database.py lines 50-66): build the
`PathModel` and commit it. -/
def insert_path {A : Type} (db : DB A) (parent name : String) :
    Except DBError (DB A × PathRec) :=
  commitPath db parent name

/-- `Database.insert_version` (database.py lines 88-108): build the
`VersionModel` and commit it; no existence check of the path id is
performed by the code itself. -/
def insert_version {A : Type} (db : DB A) (path_id version_no : Nat) (attrs : A) :
    Except DBError (DB A) :=
  commitVersion db ⟨path_id, version_no, attrs⟩

/-- `Database.select_paths` (database.py lines 133-142): each filter is
applied only when the argument is truthy (`if parent:`), so `none` and
the empty string both mean "no filter on this column". -/
def select_paths {A : Type} (db : DB A) (parent name : Option String) :
    List PathRec :=
  let s1 := match parent with
    | some s => if s = "" then db.paths else db.paths.filter (fun p => p.parent == s)
    | none => db.paths
  match name with
  | some s => if s = "" then s1 else s1.filter (fun p => p.name == s)
  | none => s1

/-- `Database.select_versions` (database.py lines 144-153): each filter
is applied only when the argument is truthy (`if path_id:`), so `none`
and `0` both mean "no filter on this column". -/
def select_versions {A : Type} (db : DB A) (path_id version_no : Option Nat) :
    List (VersionRec A) :=
  let s1 := match path_id with
    | some n => if n = 0 then db.versions else db.versions.filter (fun v => v.path_id == n)
    | none => db.versions
  match version_no with
  | some n => if n = 0 then s1 else s1.filter (fun v => v.version_no == n)
  | none => s1

/-- `Database.select_all` (database.py lines 128-131): the join
`select(PathModel, VersionModel).join(VersionModel, PathModel.id ==
VersionModel.path_id)` with no ORDER BY, enumerated as the nested-loop
join over the stored tables: paths outer, versions inner. -/
def select_all {A : Type} (db : DB A) : List (PathRec × VersionRec A) :=
  db.paths.flatMap fun p =>
    (db.versions.filter (fun v => v.path_id == p.id)).map (fun v => (p, v))

/-- The version numbers stored for a given path id, in table order
(the projection `SELECT version_no FROM Versions WHERE path_id = pid`). -/
def versionNos {A : Type} (db : DB A) (pid : Nat) : List Nat :=
  (db.versions.filter (fun v => v.path_id == pid)).map (fun v => v.version_no)

/-- `Database.upsert_version` (database.py lines 155-185).  The lookup
at line 172 filters on `parent` only: the Python `and` of the two
SQLAlchemy clauses evaluates to its first operand, discarding the
`name` clause.  `first()` takes the head of table order.  In the
found branch, `latest` is `max(version_no)` for the found path; when
the path has no versions that scalar is `None` and `latest + 1` raises
`TypeError` (line 181). -/
def upsert_version {A : Type} (db : DB A) (parent name : String) (attrs : A) :
    Except DBError (DB A × PathRec × VersionRec A) :=
  match db.paths.find? (fun p => p.parent == parent) with
  | none =>
    match commitPath db parent name with
    | .error e => .error e
    | .ok (db1, p) =>
      let v : VersionRec A := ⟨p.id, 1, attrs⟩
      match commitVersion db1 v with
      | .error e => .error e
      | .ok db2 => .ok (db2, p, v)
  | some p =>
    match (versionNos db p.id).max? with
    | none => .error .pyTypeError
    | some m =>
      let v : VersionRec A := ⟨p.id, m + 1, attrs⟩
      match commitVersion db v with
      | .error e => .error e
      | .ok db2 => .ok (db2, p, v)

/-- The durable store state after the first commit inside
`upsert_version` (database.py line 177), reached when the lookup found
no row and the new `Paths` row was committed on its own: this is what
survives if execution fails between that commit and the second commit
at line 184 (`none` when the branch is not taken or the path commit
itself fails).  Translated from lines 171-177 of the source. -/
def upsert_version_firstCommit {A : Type} (db : DB A) (parent name : String) :
    Option (DB A) :=
  match db.paths.find? (fun p => p.parent == parent) with
  | none =>
    match commitPath db parent name with
    | .error _ => none
    | .ok (db1, _) => some db1
  | some _ => none

/-- States reachable from a fresh store through the mutating library
API: `addPath`, `addVersion` and successful `upsertVersion` calls. -/
inductive Reachable {A : Type} : DB A → Prop where
  | empty : Reachable emptyDB
  | stepPath {db db' : DB A} {parent name : String} {p : PathRec} :
      Reachable db → insert_path db parent name = .ok (db', p) → Reachable db'
  | stepVersion {db db' : DB A} {pid vno : Nat} {a : A} :
      Reachable db → insert_version db pid vno a = .ok db' → Reachable db'
  | stepUpsert {db db' : DB A} {parent name : String} {a : A}
      {p : PathRec} {v : VersionRec A} :
      Reachable db → upsert_version db parent name a = .ok (db', p, v) → Reachable db'

/-- States reachable from a fresh store through successful
`upsertVersion` calls only. -/
inductive UpsertReach {A : Type} : DB A → Prop where
  | empty : UpsertReach emptyDB
  | step {db db' : DB A} {parent name : String} {a : A}
      {p : PathRec} {v : VersionRec A} :
      UpsertReach db → upsert_version db parent name a = .ok (db', p, v) →
      UpsertReach db'

/-- No two `Paths` rows share the `(parent, name)` pair. -/
def PairwiseUnique {A : Type} (db : DB A) : Prop :=
  db.paths.Pairwise (fun p q => ¬(p.parent = q.parent ∧ p.name = q.name))

/-- Inductive invariant carried through sequences of successful
upserts: path ids and version foreign keys stay below the
autoincrement counter, and each path's stored version numbers are
exactly 1..k in table order. -/
def UpsertInv {A : Type} (db : DB A) : Prop :=
  (∀ p ∈ db.paths, p.id < db.nextId) ∧
  (∀ v ∈ db.versions, v.path_id < db.nextId) ∧
  (∀ pid : Nat, ∃ k, versionNos db pid = List.range' 1 k)

/-! Concrete stores used by the claim theorems below. -/

/-- Store holding two distinct paths under the same parent `/a` — ids 1
(`f.txt`) and 2 (`g.txt`) — each with one version. -/
def dbC1 : DB Nat := ⟨[⟨1, "/a", "f.txt"⟩, ⟨2, "/a", "g.txt"⟩], [⟨1, 1, 10⟩, ⟨2, 1, 20⟩], 3⟩

/-- The durable intermediate state of a first-observation upsert on a
fresh store: the path row committed, no version row yet. -/
def dbPartial : DB Nat := ⟨[⟨1, "/a", "f.txt"⟩], [], 2⟩

/-- Store with one path whose versions were inserted out of numeric
order: version 2 first, then version 1. -/
def dbC7 : DB Nat := ⟨[⟨1, "/a", "f.txt"⟩], [⟨1, 2, 20⟩, ⟨1, 1, 10⟩], 2⟩

/-- Store with one path and versions 1..3 inserted in ascending order. -/
def dbC7r : DB Nat := ⟨[⟨1, "/a", "f.txt"⟩], [⟨1, 1, 10⟩, ⟨1, 2, 20⟩, ⟨1, 3, 30⟩], 2⟩

/-- C1: the claim says the upsert lookup matches on (location, name).
In the code the Python `and` at database.py:172 discards the name
clause, so on a store containing both ("/a", "f.txt") (id 1) and
("/a", "g.txt") (id 2), upserting ("/a", "g.txt") finds and appends to
the path named "f.txt" — id 1, the first row with the right parent —
not the path whose name also matches. -/
theorem upsert_lookup_ignores_name :
    (do
      let (d1, _) ← insert_path (A := Nat) emptyDB "/a" "f.txt"
      let d2 ← insert_version d1 1 1 10
      let (d3, _) ← insert_path d2 "/a" "g.txt"
      insert_version d3 2 1 20 : Except DBError (DB Nat)) = .ok dbC1 ∧
    upsert_version dbC1 "/a" "g.txt" 30 =
      .ok (⟨[⟨1, "/a", "f.txt"⟩, ⟨2, "/a", "g.txt"⟩],
            [⟨1, 1, 10⟩, ⟨2, 1, 20⟩, ⟨1, 2, 30⟩], 3⟩,
           ⟨1, "/a", "f.txt"⟩, ⟨1, 2, 30⟩) ∧
    ("f.txt" : String) ≠ "g.txt" :=
  ⟨rfl, rfl, by decide⟩

/-- C2: the claim says upsert is one atomic transaction, so no Path of
a first observation can persist without its Version.  The code commits
the new Path on its own at database.py:177 before the Version commit at
line 184: if execution fails between the two commits, the store durably
holds the Path with zero Versions. -/
theorem upsert_first_commit_persists_path_without_version :
    upsert_version_firstCommit (A := Nat) emptyDB "/a" "f.txt" = some dbPartial ∧
    select_paths dbPartial (some "/a") (some "f.txt") = [⟨1, "/a", "f.txt"⟩] ∧
    select_versions dbPartial (some 1) none = [] :=
  ⟨rfl, rfl, rfl⟩

/-- C3: the claim says a path with zero versions gets version 1 (absent
max treated as 0).  The code evaluates `latest + 1` on the raw
`max(version_no)` scalar, which is None for such a path, raising a
Python TypeError (database.py:181) instead of inserting version 1. -/
theorem upsert_zero_version_path_raises_type_error :
    insert_path (A := Nat) emptyDB "/a" "f.txt" = .ok (dbPartial, ⟨1, "/a", "f.txt"⟩) ∧
    upsert_version dbPartial "/a" "f.txt" 5 = .error .pyTypeError :=
  ⟨rfl, rfl⟩

/-- C5: on a fresh store the first upsert of ("/a", "f.txt") creates
path id 1 and version (1, 1, attrs1); the second upsert of the same
(location, name) returns the same path id 1 with the new version
(1, 2, attrs2) and creates no second Path row. -/
theorem upsert_create_then_append_same_path :
    upsert_version (A := Nat) emptyDB "/a" "f.txt" 1 =
      .ok (⟨[⟨1, "/a", "f.txt"⟩], [⟨1, 1, 1⟩], 2⟩, ⟨1, "/a", "f.txt"⟩, ⟨1, 1, 1⟩) ∧
    upsert_version (⟨[⟨1, "/a", "f.txt"⟩], [⟨1, 1, 1⟩], 2⟩ : DB Nat) "/a" "f.txt" 2 =
      .ok (⟨[⟨1, "/a", "f.txt"⟩], [⟨1, 1, 1⟩, ⟨1, 2, 2⟩], 2⟩,
           ⟨1, "/a", "f.txt"⟩, ⟨1, 2, 2⟩) :=
  ⟨rfl, rfl⟩

/-- C6 counterexample: adding a version for a nonexistent path id does
not fail with NotFound as claimed — the code performs no lookup and the
declared foreign key rejects the row as a constraint violation. -/
theorem insert_version_missing_path_not_notFound :
    insert_version (A := Nat) emptyDB 1 1 7 = .error .constraintViolation ∧
    insert_version (A := Nat) emptyDB 1 1 7 ≠ .error .notFound :=
  ⟨rfl, by
    intro hcontra
    have hinj : DBError.constraintViolation = DBError.notFound :=
      Except.error.inj hcontra
    cases hinj⟩

/-- C6 amended: insert_version with a path id no Paths row carries
fails with ConstraintViolation (the declared foreign key), and thus
never silently persists a Version referencing a nonexistent Path. -/
theorem insert_version_missing_path_constraint_violation {A : Type}
    (db : DB A) (pid vno : Nat) (a : A)
    (h : ∀ p ∈ db.paths, p.id ≠ pid) :
    insert_version db pid vno a = .error .constraintViolation := by
  have hall : db.paths.all (fun p => p.id != pid) = true := by
    simp only [List.all_eq_true, bne_iff_ne, ne_eq]
    exact h
  unfold insert_version commitVersion
  split
  · rfl
  · simp [hall]

/-- Witness for the C6 amended theorem at a concrete input. -/
theorem insert_version_missing_path_constraint_violation_witness :
    insert_version (A := Nat) emptyDB 2 3 7 = .error .constraintViolation :=
  insert_version_missing_path_constraint_violation emptyDB 2 3 7 (by simp [emptyDB])

/-- C7 counterexample: select_all issues no ORDER BY, so the joined
records come back in table order, not ordered by version number: after
inserting version 2 before version 1 the listing yields version
numbers [2, 1], which is not ascending. -/
theorem select_all_not_version_ordered :
    (do
      let (d1, _) ← insert_path (A := Nat) emptyDB "/a" "f.txt"
      let d2 ← insert_version d1 1 2 20
      insert_version d2 1 1 10 : Except DBError (DB Nat)) = .ok dbC7 ∧
    (select_all dbC7).map (fun r => r.2.version_no) = [2, 1] ∧
    ¬ List.Pairwise (fun a b => a ≤ b) ((select_all dbC7).map (fun r => r.2.version_no)) :=
  ⟨rfl, rfl, by decide⟩

/-- C7 amended: select_all returns the Path-Version join in storage
order (paths outer, each path's versions in insertion order); after
inserting one Path with versions 1..3 in ascending order it yields
exactly 3 joined records, in that order, each with the stored attrs. -/
theorem select_all_roundtrip_insertion_order :
    (do
      let (d1, _) ← insert_path (A := Nat) emptyDB "/a" "f.txt"
      let d2 ← insert_version d1 1 1 10
      let d3 ← insert_version d2 1 2 20
      insert_version d3 1 3 30 : Except DBError (DB Nat)) = .ok dbC7r ∧
    select_all dbC7r =
      [(⟨1, "/a", "f.txt"⟩, ⟨1, 1, 10⟩),
       (⟨1, "/a", "f.txt"⟩, ⟨1, 2, 20⟩),
       (⟨1, "/a", "f.txt"⟩, ⟨1, 3, 30⟩)] :=
  ⟨rfl, rfl⟩

/-! Helper lemmas about the commit primitives and the upsert protocol. -/

/-- Inversion of a successful `commitPath`: the shape of the new state
and the absence of any row with the committed `(parent, name)` pair. -/
theorem commitPath_ok {A : Type} {db db2 : DB A} {parent name : String} {p : PathRec}
    (h : commitPath db parent name = .ok (db2, p)) :
    p = ⟨db.nextId, parent, name⟩ ∧
    db2.paths = db.paths ++ [p] ∧ db2.versions = db.versions ∧
    db2.nextId = db.nextId + 1 ∧
    ∀ q ∈ db.paths, ¬(q.parent = parent ∧ q.name = name) := by
  unfold commitPath at h
  split at h
  · cases h
  next hany =>
    cases h
    refine ⟨rfl, rfl, rfl, rfl, ?_⟩
    intro q hq ⟨hqp, hqn⟩
    exact hany (List.any_eq_true.mpr ⟨q, hq, by simp [hqp, hqn]⟩)

/-- Inversion of a successful `commitVersion`: the version row is
appended, nothing else changes, the pair `(path_id, version_no)` was
fresh, and the referenced path exists. -/
theorem commitVersion_ok {A : Type} {db db2 : DB A} {v : VersionRec A}
    (h : commitVersion db v = .ok db2) :
    db2.paths = db.paths ∧ db2.versions = db.versions ++ [v] ∧
    db2.nextId = db.nextId := by
  unfold commitVersion at h
  split at h
  · cases h
  split at h
  · cases h
  cases h
  exact ⟨rfl, rfl, rfl⟩

/-- Inversion of a successful `upsert_version`: either the parent-only
lookup found nothing and a fresh path with version 1 was committed, or
it found a path (the first row whose parent matches) and appended
`max + 1`. -/
theorem upsert_version_ok {A : Type} {db db2 : DB A} {parent name : String} {a : A}
    {p : PathRec} {v : VersionRec A}
    (h : upsert_version db parent name a = .ok (db2, p, v)) :
    (db.paths.find? (fun q => q.parent == parent) = none ∧
      p = ⟨db.nextId, parent, name⟩ ∧ v = ⟨db.nextId, 1, a⟩ ∧
      db2.paths = db.paths ++ [p] ∧ db2.versions = db.versions ++ [v] ∧
      db2.nextId = db.nextId + 1 ∧
      ∀ q ∈ db.paths, ¬(q.parent = parent ∧ q.name = name)) ∨
    (∃ m, db.paths.find? (fun q => q.parent == parent) = some p ∧
      (versionNos db p.id).max? = some m ∧ v = ⟨p.id, m + 1, a⟩ ∧
      db2.paths = db.paths ∧ db2.versions = db.versions ++ [v] ∧
      db2.nextId = db.nextId) := by
  unfold upsert_version at h
  split at h
  next hfind =>
    left
    split at h
    · cases h
    next db1 p1 hcp =>
      dsimp only at h
      split at h
      · cases h
      next db3 hcv =>
        cases h
        obtain ⟨hp, hpaths, hvers, hnext, hfresh⟩ := commitPath_ok hcp
        obtain ⟨h2paths, h2vers, h2next⟩ := commitVersion_ok hcv
        subst hp
        refine ⟨hfind, rfl, rfl, ?_, ?_, ?_, hfresh⟩
        · rw [h2paths, hpaths]
        · rw [h2vers, hvers]
        · rw [h2next, hnext]
  next p1 hfind =>
    right
    split at h
    · cases h
    next m hmax =>
      dsimp only at h
      split at h
      · cases h
      next db3 hcv =>
        cases h
        obtain ⟨h2paths, h2vers, h2next⟩ := commitVersion_ok hcv
        exact ⟨m, hfind, hmax, rfl, h2paths, h2vers, h2next⟩

/-- Appending a path whose `(parent, name)` pair is absent preserves
pairwise uniqueness of the pairs. -/
theorem pairwise_unique_snoc {l : List PathRec} {p : PathRec}
    (hu : l.Pairwise (fun p q => ¬(p.parent = q.parent ∧ p.name = q.name)))
    (hnew : ∀ q ∈ l, ¬(q.parent = p.parent ∧ q.name = p.name)) :
    (l ++ [p]).Pairwise (fun p q => ¬(p.parent = q.parent ∧ p.name = q.name)) := by
  rw [List.pairwise_append]
  refine ⟨hu, List.pairwise_singleton _ _, ?_⟩
  intro a ha b hb
  simp only [List.mem_singleton] at hb
  subst hb
  exact hnew a ha

/-- A second `insert_path` of the same pair right after a successful
one hits the uniqueness constraint. -/
theorem insert_path_dup_fails {A : Type} {db db2 : DB A} {parent name : String}
    {p : PathRec} (h : insert_path db parent name = .ok (db2, p)) :
    insert_path db2 parent name = .error .constraintViolation := by
  obtain ⟨hp, hpaths, _, _, _⟩ := commitPath_ok h
  unfold insert_path commitPath
  rw [if_pos]
  rw [hpaths, List.any_append]
  apply Bool.or_eq_true_iff.mpr
  right
  simp [hp]

/-- Every state reachable through the mutating API keeps the
`(parent, name)` pairs of its paths pairwise distinct. -/
theorem reachable_pairwiseUnique {A : Type} {db : DB A} (h : Reachable db) :
    PairwiseUnique db := by
  induction h with
  | empty => exact List.Pairwise.nil
  | stepPath hr heq ih =>
    obtain ⟨hp, hpaths, _, _, hfresh⟩ := commitPath_ok heq
    unfold PairwiseUnique at ih ⊢
    rw [hpaths]
    exact pairwise_unique_snoc ih (by subst hp; exact hfresh)
  | stepVersion hr heq ih =>
    obtain ⟨hpaths, _, _⟩ := commitVersion_ok heq
    unfold PairwiseUnique at ih ⊢
    rw [hpaths]
    exact ih
  | stepUpsert hr heq ih =>
    rcases upsert_version_ok heq with
      ⟨hfind, hp, hv, hpaths, hvers, hnext, hfresh⟩ | ⟨m, hfind, hmax, hv, hpaths, hvers, hnext⟩
    · unfold PairwiseUnique at ih ⊢
      rw [hpaths]
      exact pairwise_unique_snoc ih (by subst hp; exact hfresh)
    · unfold PairwiseUnique at ih ⊢
      rw [hpaths]
      exact ih

/-- Appending one version row extends exactly the owning path's
version-number projection. -/
theorem versionNos_snoc {A : Type} {db db2 : DB A} {v : VersionRec A}
    (h : db2.versions = db.versions ++ [v]) (pid : Nat) :
    versionNos db2 pid =
      versionNos db pid ++ (if v.path_id = pid then [v.version_no] else []) := by
  unfold versionNos
  rw [h, List.filter_append, List.map_append]
  congr 1
  by_cases hv : v.path_id = pid
  · simp [hv]
  · simp [List.filter_cons, hv]

/-- A path id the store has never assigned owns no version rows. -/
theorem versionNos_eq_nil_of_unreferenced {A : Type} {db : DB A} {pid : Nat}
    (h : ∀ v ∈ db.versions, v.path_id ≠ pid) :
    versionNos db pid = [] := by
  unfold versionNos
  rw [List.filter_eq_nil_iff.mpr (fun v hv => by simp [h v hv])]
  rfl

/-- Maximum of the contiguous block 1..k. -/
theorem range'_one_max? (k : Nat) :
    (List.range' 1 k).max? = if k = 0 then none else some k := by
  cases k with
  | zero => rfl
  | succ n =>
    rw [if_neg (Nat.succ_ne_zero n)]
    apply List.max?_eq_some_iff'.mpr
    constructor
    · rw [List.mem_range'_1]
      omega
    · intro b hb
      rw [List.mem_range'_1] at hb
      omega

/-- The invariant holds on a fresh store. -/
theorem upsertInv_empty {A : Type} : UpsertInv (emptyDB (A := A)) := by
  refine ⟨?_, ?_, ?_⟩
  · intro p hp
    cases hp
  · intro v hv
    cases hv
  · intro pid
    exact ⟨0, rfl⟩

/-- One successful upsert preserves the invariant. -/
theorem upsertInv_step {A : Type} {db db2 : DB A} {parent name : String} {a : A}
    {p : PathRec} {v : VersionRec A}
    (h : upsert_version db parent name a = .ok (db2, p, v)) (hinv : UpsertInv db) :
    UpsertInv db2 := by
  obtain ⟨h1, h2, h3⟩ := hinv
  rcases upsert_version_ok h with
    ⟨hfind, hp, hv, hpaths, hvers, hnext, hfresh⟩ |
    ⟨m, hfind, hmax, hv, hpaths, hvers, hnext⟩
  · refine ⟨?_, ?_, ?_⟩
    · intro q hq
      rw [hpaths, List.mem_append] at hq
      rw [hnext]
      rcases hq with hq | hq
      · exact Nat.lt_succ_of_lt (h1 q hq)
      · simp only [List.mem_singleton] at hq
        subst hq
        rw [hp]
        exact Nat.lt_succ_self _
    · intro w hw
      rw [hvers, List.mem_append] at hw
      rw [hnext]
      rcases hw with hw | hw
      · exact Nat.lt_succ_of_lt (h2 w hw)
      · simp only [List.mem_singleton] at hw
        subst hw
        rw [hv]
        exact Nat.lt_succ_self _
    · intro pid
      rw [versionNos_snoc hvers pid]
      by_cases hpid : v.path_id = pid
      · have hnil : versionNos db pid = [] := by
          apply versionNos_eq_nil_of_unreferenced
          intro w hw hwp
          have := h2 w hw
          rw [hwp, ← hpid, hv] at this
          exact Nat.lt_irrefl _ this
        rw [if_pos hpid, hnil, hv]
        exact ⟨1, rfl⟩
      · rw [if_neg hpid, List.append_nil]
        exact h3 pid
  · refine ⟨?_, ?_, ?_⟩
    · intro q hq
      rw [hpaths] at hq
      rw [hnext]
      exact h1 q hq
    · intro w hw
      rw [hvers, List.mem_append] at hw
      rw [hnext]
      rcases hw with hw | hw
      · exact h2 w hw
      · simp only [List.mem_singleton] at hw
        subst hw
        rw [hv]
        exact h1 p (List.mem_of_find?_eq_some hfind)
    · intro pid
      rw [versionNos_snoc hvers pid]
      by_cases hpid : v.path_id = pid
      · obtain ⟨k, hk⟩ := h3 pid
        have hmk : m = k := by
          rw [hv] at hpid
          simp only at hpid
          rw [hpid, hk, range'_one_max?] at hmax
          by_cases hk0 : k = 0
          · rw [if_pos hk0] at hmax
            cases hmax
          · rw [if_neg hk0] at hmax
            exact (Option.some.inj hmax).symm
        rw [if_pos hpid, hk, hv]
        refine ⟨k + 1, ?_⟩
        rw [List.range'_1_concat 1 k, Nat.add_comm 1 k, hmk]
      · rw [if_neg hpid, List.append_nil]
        exact h3 pid

/-- C4: after any sequence of successful upserts starting from a fresh
store, every path id's stored version numbers are exactly
{1, 2, ..., k} for some k ≥ 0: the projection is the contiguous block
1..k, duplicate-free, and contains n exactly when 1 ≤ n ≤ k. -/
theorem upsert_version_numbers_contiguous {A : Type} {db : DB A}
    (h : UpsertReach db) (pid : Nat) :
    ∃ k, versionNos db pid = List.range' 1 k ∧
      (versionNos db pid).Nodup ∧
      ∀ n, n ∈ versionNos db pid ↔ 1 ≤ n ∧ n ≤ k := by
  have hinv : UpsertInv db := by
    induction h with
    | empty => exact upsertInv_empty
    | step hr heq ih => exact upsertInv_step heq ih
  obtain ⟨k, hk⟩ := hinv.2.2 pid
  refine ⟨k, hk, ?_, ?_⟩
  · rw [hk]
    exact List.nodup_range' 1 k
  · intro n
    rw [hk, List.mem_range'_1]
    omega

/-- Witness for C4 on the store reached by two concrete upserts. -/
theorem upsert_version_numbers_contiguous_witness :
    ∃ k, versionNos (⟨[⟨1, "/a", "f.txt"⟩], [⟨1, 1, 1⟩, ⟨1, 2, 2⟩], 2⟩ : DB Nat) 1 =
        List.range' 1 k ∧
      (versionNos (⟨[⟨1, "/a", "f.txt"⟩], [⟨1, 1, 1⟩, ⟨1, 2, 2⟩], 2⟩ : DB Nat) 1).Nodup ∧
      ∀ n, n ∈ versionNos (⟨[⟨1, "/a", "f.txt"⟩], [⟨1, 1, 1⟩, ⟨1, 2, 2⟩], 2⟩ : DB Nat) 1 ↔
        1 ≤ n ∧ n ≤ k :=
  upsert_version_numbers_contiguous
    (UpsertReach.step
      (UpsertReach.step UpsertReach.empty
        (show upsert_version (A := Nat) emptyDB "/a" "f.txt" 1 =
          .ok (⟨[⟨1, "/a", "f.txt"⟩], [⟨1, 1, 1⟩], 2⟩,
               ⟨1, "/a", "f.txt"⟩, ⟨1, 1, 1⟩) from rfl))
      (show upsert_version (⟨[⟨1, "/a", "f.txt"⟩], [⟨1, 1, 1⟩], 2⟩ : DB Nat)
          "/a" "f.txt" 2 =
        .ok (⟨[⟨1, "/a", "f.txt"⟩], [⟨1, 1, 1⟩, ⟨1, 2, 2⟩], 2⟩,
             ⟨1, "/a", "f.txt"⟩, ⟨1, 2, 2⟩) from rfl))
    1

/-- C8: in every store reachable through the mutating API at most one
Paths row carries a given (location, name) pair, and a second addPath
of a pair just inserted fails with ConstraintViolation instead of
creating a duplicate. -/
theorem paths_pair_unique_and_duplicate_addPath_fails {A : Type} {db : DB A}
    (hdb : Reachable db) :
    PairwiseUnique db ∧
    ∀ db2 parent name p, insert_path db parent name = .ok (db2, p) →
      insert_path db2 parent name = .error .constraintViolation := by
  refine ⟨reachable_pairwiseUnique hdb, ?_⟩
  intro db2 parent name p h
  exact insert_path_dup_fails h

/-- Witness for C8 at the fresh store and a concrete duplicate insert. -/
theorem paths_pair_unique_and_duplicate_addPath_fails_witness :
    PairwiseUnique (emptyDB (A := Nat)) ∧
    insert_path (⟨[⟨1, "/a", "f.txt"⟩], [], 2⟩ : DB Nat) "/a" "f.txt" =
      .error .constraintViolation := by
  have h := paths_pair_unique_and_duplicate_addPath_fails (A := Nat) Reachable.empty
  exact ⟨h.1, h.2 ⟨[⟨1, "/a", "f.txt"⟩], [], 2⟩ "/a" "f.txt" ⟨1, "/a", "f.txt"⟩ rfl⟩

/-- C9: select_paths composes its optional exact-match filters with
logical AND — a location filter alone keeps exactly the rows with that
parent, both filters keep exactly the rows matching both fields, and
omitting both filters keeps every row. -/
theorem select_paths_filters_compose_and {A : Type} (db : DB A) (s t : String)
    (hs : s ≠ "") (ht : t ≠ "") :
    select_paths db (some s) none = db.paths.filter (fun p => p.parent == s) ∧
    select_paths db none (some t) = db.paths.filter (fun p => p.name == t) ∧
    select_paths db (some s) (some t) =
      db.paths.filter (fun p => p.parent == s && p.name == t) ∧
    select_paths db none none = db.paths := by
  refine ⟨?_, ?_, ?_, rfl⟩
  · simp [select_paths, hs]
  · simp [select_paths, ht]
  · simp only [select_paths, if_neg hs, if_neg ht, List.filter_filter]
    exact List.filter_congr fun a _ => by rw [Bool.and_comm]

/-- Witness for C9 on a concrete two-row store. -/
theorem select_paths_filters_compose_and_witness :
    select_paths (⟨[⟨1, "/a", "f.txt"⟩, ⟨2, "/b", "f.txt"⟩], [], 3⟩ : DB Nat)
        (some "/a") none =
      (⟨[⟨1, "/a", "f.txt"⟩, ⟨2, "/b", "f.txt"⟩], [], 3⟩ : DB Nat).paths.filter
        (fun p => p.parent == "/a") ∧
    select_paths (⟨[⟨1, "/a", "f.txt"⟩, ⟨2, "/b", "f.txt"⟩], [], 3⟩ : DB Nat)
        none (some "f.txt") =
      (⟨[⟨1, "/a", "f.txt"⟩, ⟨2, "/b", "f.txt"⟩], [], 3⟩ : DB Nat).paths.filter
        (fun p => p.name == "f.txt") ∧
    select_paths (⟨[⟨1, "/a", "f.txt"⟩, ⟨2, "/b", "f.txt"⟩], [], 3⟩ : DB Nat)
        (some "/a") (some "f.txt") =
      (⟨[⟨1, "/a", "f.txt"⟩, ⟨2, "/b", "f.txt"⟩], [], 3⟩ : DB Nat).paths.filter
        (fun p => p.parent == "/a" && p.name == "f.txt") ∧
    select_paths (⟨[⟨1, "/a", "f.txt"⟩, ⟨2, "/b", "f.txt"⟩], [], 3⟩ : DB Nat)
        none none =
      (⟨[⟨1, "/a", "f.txt"⟩, ⟨2, "/b", "f.txt"⟩], [], 3⟩ : DB Nat).paths :=
  select_paths_filters_compose_and
    (⟨[⟨1, "/a", "f.txt"⟩, ⟨2, "/b", "f.txt"⟩], [], 3⟩ : DB Nat)
    "/a" "f.txt" (by decide) (by decide)

/-- C10: a falsy filter argument is treated as an omitted filter — the
empty string for either select_paths column and 0 for either
select_versions column produce exactly the listing of the
corresponding omitted-filter query, so no row is ever selected by
exact-matching on "" or 0. -/
theorem falsy_filters_treated_as_omitted {A : Type} (db : DB A)
    (o1 : Option String) (o2 : Option Nat) :
    select_paths db (some "") o1 = select_paths db none o1 ∧
    select_paths db o1 (some "") = select_paths db o1 none ∧
    select_versions db (some 0) o2 = select_versions db none o2 ∧
    select_versions db o2 (some 0) = select_versions db o2 none := by
  refine ⟨?_, ?_, ?_, ?_⟩ <;> simp [select_paths, select_versions]

end FsHistory
